import Mathlib

/-!
Verification of the doctor-appointment controller layer
(`src/server/controllers/doctor.controller.js`) against its natural-language
specification.

The controller is a thin layer over a document database.  We shallowly embed
the data the handlers touch (doctor profiles, user records, patient profiles,
appointments) as Lean structures, and each handler's logic as a pure function
over that data.  External collaborators (the file store, the ODM session) are
modelled explicitly:

* timestamps appearing only in day-level comparisons are modelled at
  whole-second granularity as `day * 86400 + sec`;
* `createdAt` timestamps, which the monthly-statistics aggregation only ever
  inspects through `$month`/`$year` and a `>=` comparison against the first
  instant of a calendar month, are modelled by their calendar fields
  (`year`, `month`), since `t >= firstInstantOfMonth m` holds iff the
  calendar month of `t` is at least `m`;
* Mongo sessions are modelled by a pending copy of the database: writes
  passed `{session}` act on the pending copy, `commitTransaction` publishes
  it, and the `catch` block's `abortTransaction` discards it.  Failure of an
  awaited step is injected through an explicit fail-point parameter.

Record fields of the Mongoose schemas that no handler logic inspects
(e.g. `registrationCouncil`, `rejectionReason`) are omitted.
-/

namespace Medi

/-- A calendar month: `year` plus a month index `0..11`
(the convention of JavaScript `Date.getMonth()`). -/
structure DateYM where
  year : Int
  month : Fin 12
  deriving DecidableEq, Repr

/-- JavaScript `new Date(year, month, 1)`: an out-of-range month argument
rolls over into the year, e.g. `new Date(2024, -3, 1)` is October 2023. -/
def mkDateMonth (y : Int) (m : Int) : DateYM :=
  ⟨y + m / 12, ⟨(m % 12).toNat, by
    have h0 : 0 ≤ m % 12 := Int.emod_nonneg m (by decide)
    have h1 : m % 12 < 12 := Int.emod_lt_of_pos m (by decide)
    omega⟩⟩

/-- Absolute month index of a calendar month, used to compare calendar
months chronologically. -/
def monthIdx (d : DateYM) : Int := d.year * 12 + d.month.val

/-- A verification document (`verificationDocuments` array entries). -/
structure VDoc where
  name : String
  url : String
  verified : Bool
  deriving DecidableEq, Repr

/-- A review entry in `doctor.reviews`. -/
structure Review where
  patient : Nat
  rating : Int
  comment : String
  date : Nat
  deriving DecidableEq, Repr

/-- A bookable time slot in a day's availability. -/
structure Slot where
  startTime : String
  endTime : String
  deriving DecidableEq, Repr

/-- Per-weekday availability entry (`doctor.availability` array entries). -/
structure DayAvail where
  day : String
  isAvailable : Bool
  slots : List Slot
  deriving DecidableEq, Repr

/-- A doctor profile document. -/
structure Doctor where
  id : Nat
  user : Nat
  registrationNumber : String
  verificationDocuments : List VDoc
  reviews : List Review
  availability : List DayAvail
  qualifications : List String
  specialties : List String
  experience : Int
  clinicDetails : String
  hospitalAffiliations : List String
  consultationFee : Int
  languages : List String
  bio : String
  videoConsultation : Bool
  acceptingNewPatients : Bool
  isVerified : Bool
  deriving DecidableEq, Repr

/-- A user record (only the fields the doctor controller touches). -/
structure UserRec where
  id : Nat
  role : String
  deriving DecidableEq, Repr

/-- A patient profile (keyed by its owning user). -/
structure Patient where
  id : Nat
  user : Nat
  deriving DecidableEq, Repr

/-- An appointment document.  `dateDay`/`dateSec` are the day index and
second-within-day of `appointmentDate`; `createdAtYear`/`createdAtMonth`
are the calendar fields of the `createdAt` timestamp. -/
structure Appt where
  doctor : Nat
  patient : Nat
  dateDay : Nat
  dateSec : Nat
  time : String
  status : String
  cancellationReason : String
  createdAtYear : Int
  createdAtMonth : Fin 12
  deriving DecidableEq, Repr

/-- Absolute second of `appointmentDate` (for `$gte`/`$lt` range queries). -/
def apptAbs (a : Appt) : Nat := a.dateDay * 86400 + a.dateSec

/-- Absolute month index of an appointment's `createdAt` timestamp. -/
def createdIdx (a : Appt) : Int := a.createdAtYear * 12 + a.createdAtMonth.val

/-! ## Monthly appointment statistics (`getMonthlyAppointmentStats`) -/

/-- The short month names indexed by `Date.getMonth()`. -/
def monthNames : List String :=
  ["Jan", "Feb", "Mar", "Apr", "May", "Jun", "Jul", "Aug", "Sep", "Oct", "Nov", "Dec"]

/-- `months[month]` of the source, for a month index `0..11`. -/
def monthShortName (m : Fin 12) : String :=
  monthNames.get ⟨m.val, by simp [monthNames]⟩

/-- The `$group` key of the aggregation: (`$month` (1-based), `$year`). -/
def apptKey (a : Appt) : Nat × Int := (a.createdAtMonth.val + 1, a.createdAtYear)

/-- The `$group` stage: one bucket per distinct (month, year) key with the
number of matching documents.  (The subsequent `$sort` stage only orders the
buckets; the lookup that consumes them is by key over distinct keys, so the
order is irrelevant and the sort is not modelled.) -/
def aggregateByMonth (l : List Appt) : List ((Nat × Int) × Nat) :=
  ((l.map apptKey).dedup).map (fun k => (k, (l.map apptKey).count k))

/-- One entry of the monthly statistics result. -/
structure StatEntry where
  month : String
  year : Int
  count : Nat
  deriving DecidableEq, Repr

/-- One iteration of the fill loop: slot `i` months before `now`, with the
count looked up in the aggregation buckets (`found ? found.count : 0`). -/
def statEntryFor (buckets : List ((Nat × Int) × Nat)) (now : DateYM) (i : Nat) : StatEntry :=
  let d := mkDateMonth now.year ((now.month.val : Int) - i)
  match buckets.find? (fun b => b.1.1 == d.month.val + 1 && b.1.2 == d.year) with
  | some b => ⟨monthShortName d.month, d.year, b.2⟩
  | none => ⟨monthShortName d.month, d.year, 0⟩

/-- `getMonthlyAppointmentStats(doctorId)`: aggregate the doctor's
appointments created on/after the first day of the month five months before
`now`, then fill six entries (current month and the five preceding ones),
prepending each so the oldest ends up first. -/
def getMonthlyAppointmentStats (now : DateYM) (doctorId : Nat) (appts : List Appt) :
    List StatEntry :=
  let sixMonthsAgo := mkDateMonth now.year ((now.month.val : Int) - 5)
  let filtered := appts.filter (fun a =>
    a.doctor == doctorId && decide (monthIdx sixMonthsAgo ≤ createdIdx a))
  let buckets := aggregateByMonth filtered
  (List.range 6).foldl (fun results i => statEntryFor buckets now i :: results) []

/-- The entry the specification demands for the month `i` months before
`now`: its short name, its year, and the number of the doctor's appointments
whose creation timestamp falls in that calendar month. -/
def expectedMonthlyEntry (now : DateYM) (doctorId : Nat) (appts : List Appt) (i : Nat) :
    StatEntry :=
  let d := mkDateMonth now.year ((now.month.val : Int) - i)
  ⟨monthShortName d.month, d.year,
    appts.countP (fun a =>
      a.doctor == doctorId && a.createdAtYear == d.year && a.createdAtMonth == d.month)⟩

/-! ### Lemmas about the aggregation buckets -/

theorem find?_map_pair (L : List (Nat × Int)) (g : Nat × Int → Nat) (m : Nat) (y : Int) :
    (L.map (fun k => (k, g k))).find? (fun b => b.1.1 == m && b.1.2 == y)
      = (L.find? (fun k => k.1 == m && k.2 == y)).map (fun k => (k, g k)) := by
  induction L with
  | nil => rfl
  | cons a t ih =>
    cases h : (a.1 == m && a.2 == y) <;>
      simp [List.find?_cons, h, ih]

theorem find?_pair_key (L : List (Nat × Int)) (m : Nat) (y : Int) :
    L.find? (fun k => k.1 == m && k.2 == y) = if (m, y) ∈ L then some (m, y) else none := by
  induction L with
  | nil => simp
  | cons a t ih =>
    by_cases h : a = (m, y)
    · subst h
      rw [List.find?_cons_of_pos _ (by simp)]
      simp
    · rw [List.find?_cons_of_neg _ (by
        simp only [Bool.and_eq_true, beq_iff_eq]
        rintro ⟨h1, h2⟩
        exact h (Prod.ext h1 h2)), ih]
      have : ((m, y) ∈ a :: t) ↔ ((m, y) ∈ t) := by
        simp only [List.mem_cons, or_iff_right_iff_imp]
        intro he
        exact absurd he.symm h
      simp only [this]

theorem aggregate_find (l : List Appt) (m : Nat) (y : Int) :
    (aggregateByMonth l).find? (fun b => b.1.1 == m && b.1.2 == y)
      = if (m, y) ∈ l.map apptKey
        then some ((m, y), l.countP (fun a => apptKey a == (m, y)))
        else none := by
  unfold aggregateByMonth
  rw [find?_map_pair, find?_pair_key]
  by_cases h : (m, y) ∈ l.map apptKey
  · rw [if_pos (List.mem_dedup.mpr h), if_pos h, Option.map_some']
    rw [List.count_eq_countP, List.countP_map]
    rfl
  · rw [if_neg (fun hc => h (List.mem_dedup.mp hc)), if_neg h, Option.map_none']

theorem monthIdx_mkDateMonth (y m : Int) : monthIdx (mkDateMonth y m) = y * 12 + m := by
  show (y + m / 12) * 12 + ((m % 12).toNat : Int) = y * 12 + m
  omega

/-! ### The per-slot correctness lemma and the claim theorems for C1 -/

theorem slotPred_equiv (now : DateYM) (doctorId : Nat) (i : Nat) (hi : i ≤ 5) (a : Appt) :
    ((apptKey a == ((mkDateMonth now.year ((now.month.val : Int) - i)).month.val + 1,
                    (mkDateMonth now.year ((now.month.val : Int) - i)).year)) &&
      (a.doctor == doctorId &&
        decide (monthIdx (mkDateMonth now.year ((now.month.val : Int) - 5)) ≤ createdIdx a)))
    = (a.doctor == doctorId &&
        a.createdAtYear == (mkDateMonth now.year ((now.month.val : Int) - i)).year &&
        a.createdAtMonth == (mkDateMonth now.year ((now.month.val : Int) - i)).month) := by
  have hidx : monthIdx (mkDateMonth now.year ((now.month.val : Int) - i))
      = now.year * 12 + now.month.val - i := by
    rw [monthIdx_mkDateMonth]; ring
  have hsix : monthIdx (mkDateMonth now.year ((now.month.val : Int) - 5))
      = now.year * 12 + now.month.val - 5 := by
    rw [monthIdx_mkDateMonth]; ring
  set d := mkDateMonth now.year ((now.month.val : Int) - i) with hd
  apply Bool.eq_iff_iff.mpr
  simp only [Bool.and_eq_true, beq_iff_eq, decide_eq_true_eq, apptKey, Prod.mk.injEq]
  constructor
  · rintro ⟨⟨hm1, hy⟩, hdoc, _⟩
    exact ⟨⟨hdoc, hy⟩, Fin.val_injective (by omega : a.createdAtMonth.val = d.month.val)⟩
  · rintro ⟨⟨hdoc, hy⟩, hmon⟩
    have hci : createdIdx a = monthIdx d := by
      unfold createdIdx monthIdx
      rw [hy, hmon]
    refine ⟨⟨by rw [hmon], hy⟩, hdoc, ?_⟩
    rw [hsix, hci, hidx]
    omega

theorem statEntryFor_spec (now : DateYM) (doctorId : Nat) (appts : List Appt)
    (i : Nat) (hi : i ≤ 5) :
    statEntryFor
      (aggregateByMonth (appts.filter (fun a =>
        a.doctor == doctorId &&
          decide (monthIdx (mkDateMonth now.year ((now.month.val : Int) - 5)) ≤ createdIdx a))))
      now i = expectedMonthlyEntry now doctorId appts i := by
  simp only [statEntryFor, expectedMonthlyEntry]
  rw [aggregate_find]
  by_cases hm : ((mkDateMonth now.year ((now.month.val : Int) - i)).month.val + 1,
      (mkDateMonth now.year ((now.month.val : Int) - i)).year) ∈
      (appts.filter (fun a =>
        a.doctor == doctorId &&
          decide (monthIdx (mkDateMonth now.year ((now.month.val : Int) - 5)) ≤ createdIdx a))).map
        apptKey
  · rw [if_pos hm]
    have hcnt : (appts.filter (fun a =>
          a.doctor == doctorId &&
            decide (monthIdx (mkDateMonth now.year ((now.month.val : Int) - 5)) ≤
              createdIdx a))).countP (fun a =>
            apptKey a == ((mkDateMonth now.year ((now.month.val : Int) - i)).month.val + 1,
              (mkDateMonth now.year ((now.month.val : Int) - i)).year))
        = appts.countP (fun a =>
            a.doctor == doctorId &&
            a.createdAtYear == (mkDateMonth now.year ((now.month.val : Int) - i)).year &&
            a.createdAtMonth == (mkDateMonth now.year ((now.month.val : Int) - i)).month) := by
      rw [List.countP_filter]
      refine List.countP_congr (fun a _ => ?_)
      rw [slotPred_equiv now doctorId i hi a]
    simp only [hcnt]
  · rw [if_neg hm]
    have hz : appts.countP (fun a =>
        a.doctor == doctorId &&
        a.createdAtYear == (mkDateMonth now.year ((now.month.val : Int) - i)).year &&
        a.createdAtMonth == (mkDateMonth now.year ((now.month.val : Int) - i)).month) = 0 := by
      rw [List.countP_eq_zero]
      intro a ha hpa
      apply hm
      have hpair : ((apptKey a ==
          ((mkDateMonth now.year ((now.month.val : Int) - i)).month.val + 1,
            (mkDateMonth now.year ((now.month.val : Int) - i)).year)) &&
          (a.doctor == doctorId &&
            decide (monthIdx (mkDateMonth now.year ((now.month.val : Int) - 5)) ≤
              createdIdx a))) = true := by
        rw [slotPred_equiv now doctorId i hi a]
        exact hpa
      simp only [Bool.and_eq_true, beq_iff_eq] at hpair
      refine List.mem_map.mpr ⟨a, List.mem_filter.mpr ⟨ha, ?_⟩, hpair.1⟩
      simp only [Bool.and_eq_true, beq_iff_eq]
      exact hpair.2
    rw [hz]

/-- Claim C1: for every doctor identifier and every set of appointments, the
monthly-statistics function returns exactly 6 entries, one per calendar month
covering the current month and the 5 preceding months, ordered oldest first,
each `{month, year, count}` where `count` is the number of that doctor's
appointments whose creation timestamp falls in that calendar month; months
with no appointments appear with count 0 (dense 6-month window). -/
theorem claim_C1 (now : DateYM) (doctorId : Nat) (appts : List Appt) :
    getMonthlyAppointmentStats now doctorId appts =
      [expectedMonthlyEntry now doctorId appts 5, expectedMonthlyEntry now doctorId appts 4,
       expectedMonthlyEntry now doctorId appts 3, expectedMonthlyEntry now doctorId appts 2,
       expectedMonthlyEntry now doctorId appts 1, expectedMonthlyEntry now doctorId appts 0] := by
  have h := statEntryFor_spec now doctorId appts
  have hunf : getMonthlyAppointmentStats now doctorId appts =
      [statEntryFor
        (aggregateByMonth (appts.filter (fun a =>
          a.doctor == doctorId &&
            decide (monthIdx (mkDateMonth now.year ((now.month.val : Int) - 5)) ≤ createdIdx a))))
        now 5,
       statEntryFor
        (aggregateByMonth (appts.filter (fun a =>
          a.doctor == doctorId &&
            decide (monthIdx (mkDateMonth now.year ((now.month.val : Int) - 5)) ≤ createdIdx a))))
        now 4,
       statEntryFor
        (aggregateByMonth (appts.filter (fun a =>
          a.doctor == doctorId &&
            decide (monthIdx (mkDateMonth now.year ((now.month.val : Int) - 5)) ≤ createdIdx a))))
        now 3,
       statEntryFor
        (aggregateByMonth (appts.filter (fun a =>
          a.doctor == doctorId &&
            decide (monthIdx (mkDateMonth now.year ((now.month.val : Int) - 5)) ≤ createdIdx a))))
        now 2,
       statEntryFor
        (aggregateByMonth (appts.filter (fun a =>
          a.doctor == doctorId &&
            decide (monthIdx (mkDateMonth now.year ((now.month.val : Int) - 5)) ≤ createdIdx a))))
        now 1,
       statEntryFor
        (aggregateByMonth (appts.filter (fun a =>
          a.doctor == doctorId &&
            decide (monthIdx (mkDateMonth now.year ((now.month.val : Int) - 5)) ≤ createdIdx a))))
        now 0] := rfl
  rw [hunf, h 5 (by omega), h 4 (by omega), h 3 (by omega), h 2 (by omega), h 1 (by omega),
    h 0 (by omega)]

/-! ## Review upsert (`addDoctorReview`) -/

/-- `doctor.reviews[i].rating = rating; ...comment; ...date = Date.now()`:
overwrite the three fields of the entry at index `i`, leaving every other
entry (and the entry's `patient` reference) untouched. -/
def updateReviewAt : List Review → Nat → Int → String → Nat → List Review
  | [], _, _, _, _ => []
  | r :: rs, 0, rating, comment, d =>
      { r with rating := rating, comment := comment, date := d } :: rs
  | r :: rs, n + 1, rating, comment, d => r :: updateReviewAt rs n rating comment d

/-- The review-list mutation of `addDoctorReview`: `findIndex` of the
patient's existing review, update it in place when found, otherwise push a
new entry. -/
def upsertReview (reviews : List Review) (patientId : Nat) (rating : Int)
    (comment : String) (nowDate : Nat) : List Review :=
  match reviews.findIdx? (fun r => r.patient == patientId) with
  | some i => updateReviewAt reviews i rating comment nowDate
  | none => reviews ++ [⟨patientId, rating, comment, nowDate⟩]

/-- `addDoctorReview`: rating validation, doctor lookup, patient lookup
(`Patient.findOne({user: userId})`), completed-appointment gate, then the
review upsert.  Returns the HTTP status together with the doctors collection
afterwards (the mutated review list is persisted by the model-layer
`updateAverageRating`). -/
def addDoctorReview (doctorId userId : Nat) (rating : Int) (comment : String)
    (nowDate : Nat) (doctors : List Doctor) (patients : List Patient)
    (appts : List Appt) : Nat × List Doctor :=
  if rating == 0 || decide (rating < 1) || decide (rating > 5) then (400, doctors)
  else
    match doctors.find? (fun d => d.id == doctorId) with
    | none => (404, doctors)
    | some doctor =>
      match patients.find? (fun p => p.user == userId) with
      | none => (404, doctors)
      | some patient =>
        match appts.find? (fun a =>
            a.doctor == doctorId && a.patient == patient.id && a.status == "completed") with
        | none => (403, doctors)
        | some _ =>
          (200, doctors.map (fun d =>
            if d.id == doctorId
            then { doctor with
                    reviews := upsertReview doctor.reviews patient.id rating comment nowDate }
            else d))

/-! ### Unfolding lemmas for the upsert -/

theorem upsertReview_nil (pid : Nat) (rt : Int) (c : String) (dt : Nat) :
    upsertReview [] pid rt c dt = [⟨pid, rt, c, dt⟩] := rfl

theorem upsertReview_cons_pos (r : Review) (rs : List Review) (pid : Nat) (rt : Int)
    (c : String) (dt : Nat) (h : (r.patient == pid) = true) :
    upsertReview (r :: rs) pid rt c dt =
      { r with rating := rt, comment := c, date := dt } :: rs := by
  unfold upsertReview
  rw [List.findIdx?_cons, if_pos h]
  rfl

theorem upsertReview_cons_neg (r : Review) (rs : List Review) (pid : Nat) (rt : Int)
    (c : String) (dt : Nat) (h : (r.patient == pid) = false) :
    upsertReview (r :: rs) pid rt c dt = r :: upsertReview rs pid rt c dt := by
  unfold upsertReview
  rw [List.findIdx?_cons, if_neg (by simp [h]), List.findIdx?_succ]
  cases hidx : rs.findIdx? (fun r => r.patient == pid) with
  | none => rfl
  | some i => rfl

/-- The upsert on a list that contains the patient (uniquely): same length,
still a unique entry for that patient, and that entry carries the new
rating/comment/date. -/
theorem upsertReview_found (pid : Nat) (rt : Int) (c : String) (dt : Nat) :
    ∀ l : List Review, l.countP (fun r => r.patient == pid) ≤ 1 →
      (∃ r ∈ l, r.patient = pid) →
      (upsertReview l pid rt c dt).length = l.length ∧
      (upsertReview l pid rt c dt).countP (fun r => r.patient == pid) = 1 ∧
      ∀ r ∈ upsertReview l pid rt c dt, r.patient = pid →
        r.rating = rt ∧ r.comment = c ∧ r.date = dt := by
  intro l
  induction l with
  | nil => rintro _ ⟨r, hr, _⟩; exact absurd hr (List.not_mem_nil r)
  | cons x xs ih =>
    intro hinv hex
    by_cases hx : (x.patient == pid) = true
    · rw [upsertReview_cons_pos x xs pid rt c dt hx]
      have hxs0 : xs.countP (fun r => r.patient == pid) = 0 := by
        rw [List.countP_cons] at hinv
        simp only [hx, if_pos] at hinv
        omega
      have hxsnone : ∀ r ∈ xs, ¬ r.patient = pid := by
        intro r hr hrp
        have : 0 < xs.countP (fun r => r.patient == pid) :=
          List.countP_pos_iff.mpr ⟨r, hr, by simp [hrp]⟩
        omega
      refine ⟨by simp, ?_, ?_⟩
      · rw [List.countP_cons, hxs0]
        simp [hx]
      · rintro r hr hrp
        rcases List.mem_cons.mp hr with h | h
        · subst h; exact ⟨rfl, rfl, rfl⟩
        · exact absurd hrp (hxsnone r h)
    · have hx' : (x.patient == pid) = false := by simpa using hx
      rw [upsertReview_cons_neg x xs pid rt c dt hx']
      have hinv' : xs.countP (fun r => r.patient == pid) ≤ 1 := by
        rw [List.countP_cons] at hinv
        simp only [hx', if_neg] at hinv
        omega
      have hex' : ∃ r ∈ xs, r.patient = pid := by
        rcases hex with ⟨r, hr, hrp⟩
        rcases List.mem_cons.mp hr with h | h
        · subst h; exact absurd (by simp [hrp]) (by simp [hx'] : ¬ (r.patient == pid) = true)
        · exact ⟨r, h, hrp⟩
      obtain ⟨hlen, hcnt, hfld⟩ := ih hinv' hex'
      refine ⟨by simpa using hlen, ?_, ?_⟩
      · rw [List.countP_cons, hcnt]
        simp [hx']
      · rintro r hr hrp
        rcases List.mem_cons.mp hr with h | h
        · subst h; exact absurd (by simp [hrp]) (by simp [hx'] : ¬ (r.patient == pid) = true)
        · exact hfld r h hrp

/-- The upsert on a list with no entry for the patient appends exactly one
new entry. -/
theorem upsertReview_not_found (pid : Nat) (rt : Int) (c : String) (dt : Nat)
    (l : List Review) (hno : ¬ ∃ r ∈ l, r.patient = pid) :
    upsertReview l pid rt c dt = l ++ [⟨pid, rt, c, dt⟩] := by
  unfold upsertReview
  have : l.findIdx? (fun r => r.patient == pid) = none := by
    rw [List.findIdx?_eq_none_iff]
    intro r hr
    simp only [beq_eq_false_iff_ne, ne_eq]
    exact fun hrp => hno ⟨r, hr, hrp⟩
  rw [this]

/-- Claim C8: given an in-range rating and both profiles found, a review
submission is accepted (HTTP 200) iff a completed appointment exists between
that patient and that doctor; when none exists the request fails with 403
and the doctors collection is unchanged. -/
theorem claim_C8 (doctorId userId : Nat) (rating : Int) (comment : String) (nowDate : Nat)
    (doctors : List Doctor) (patients : List Patient) (appts : List Appt)
    (h1 : 1 ≤ rating) (h5 : rating ≤ 5)
    (doctor : Doctor) (hdoc : doctors.find? (fun d => d.id == doctorId) = some doctor)
    (patient : Patient) (hpat : patients.find? (fun p => p.user == userId) = some patient) :
    ((addDoctorReview doctorId userId rating comment nowDate doctors patients appts).1 = 200 ↔
      ∃ a ∈ appts, a.doctor = doctorId ∧ a.patient = patient.id ∧ a.status = "completed") ∧
    ((¬ ∃ a ∈ appts, a.doctor = doctorId ∧ a.patient = patient.id ∧ a.status = "completed") →
      addDoctorReview doctorId userId rating comment nowDate doctors patients appts
        = (403, doctors)) := by
  have hcond : (rating == 0 || decide (rating < 1) || decide (rating > 5)) = false := by
    simp only [Bool.or_eq_false_iff, beq_eq_false_iff_ne, ne_eq, decide_eq_false_iff_not,
      not_lt]
    refine ⟨⟨?_, ?_⟩, ?_⟩ <;> omega
  unfold addDoctorReview
  rw [hcond]
  simp only [Bool.false_eq_true, if_false, hdoc, hpat]
  rcases hfind : appts.find? (fun a =>
      a.doctor == doctorId && a.patient == patient.id && a.status == "completed") with _ | a
  · rw [hfind]
    have hnone := List.find?_eq_none.mp hfind
    refine ⟨⟨fun h => absurd h (by simp), fun hex => ?_⟩, fun _ => rfl⟩
    exfalso
    rcases hex with ⟨a, ha, hda, hpa, hsa⟩
    exact hnone a ha (by simp [hda, hpa, hsa])
  · rw [hfind]
    have hmem := List.mem_of_find?_eq_some hfind
    have hp := List.find?_some hfind
    simp only [Bool.and_eq_true, beq_iff_eq] at hp
    exact ⟨⟨fun _ => ⟨a, hmem, hp.1.1, hp.1.2, hp.2⟩,
        fun _ => rfl⟩,
      fun hno => absurd ⟨a, hmem, hp.1.1, hp.1.2, hp.2⟩ hno⟩

/-- Claim C2: on a successful submission, if the doctor's review list already
contains a (unique) review by the patient then the list keeps its length,
still holds exactly one entry for that patient, and that entry carries the
newly submitted rating, comment and date; if no review by the patient
existed, exactly one new entry is appended. -/
theorem claim_C2 (doctorId userId : Nat) (rating : Int) (comment : String) (nowDate : Nat)
    (doctors : List Doctor) (patients : List Patient) (appts : List Appt)
    (doctor : Doctor) (hdoc : doctors.find? (fun d => d.id == doctorId) = some doctor)
    (patient : Patient) (hpat : patients.find? (fun p => p.user == userId) = some patient)
    (hinv : doctor.reviews.countP (fun r => r.patient == patient.id) ≤ 1)
    (hsucc :
      (addDoctorReview doctorId userId rating comment nowDate doctors patients appts).1
        = 200) :
    (∃ d' ∈ (addDoctorReview doctorId userId rating comment nowDate doctors patients
        appts).2, d'.id = doctorId) ∧
    (∀ d' ∈ (addDoctorReview doctorId userId rating comment nowDate doctors patients
        appts).2, d'.id = doctorId →
      (((∃ r ∈ doctor.reviews, r.patient = patient.id) →
          d'.reviews.length = doctor.reviews.length ∧
          d'.reviews.countP (fun r => r.patient == patient.id) = 1 ∧
          ∀ r ∈ d'.reviews, r.patient = patient.id →
            r.rating = rating ∧ r.comment = comment ∧ r.date = nowDate) ∧
        ((¬ ∃ r ∈ doctor.reviews, r.patient = patient.id) →
          d'.reviews = doctor.reviews ++ [⟨patient.id, rating, comment, nowDate⟩]))) := by
  rcases hrt : (rating == 0 || decide (rating < 1) || decide (rating > 5)) with _ | _
  case true =>
    exfalso
    unfold addDoctorReview at hsucc
    rw [hrt] at hsucc
    simp at hsucc
  case false =>
  unfold addDoctorReview at hsucc ⊢
  rw [hrt] at hsucc ⊢
  simp only [Bool.false_eq_true, if_false, hdoc, hpat] at hsucc ⊢
  rcases hfind : appts.find? (fun a =>
      a.doctor == doctorId && a.patient == patient.id && a.status == "completed") with _ | a
  · rw [hfind] at hsucc
    simp at hsucc
  · rw [hfind] at hsucc ⊢
    simp only
    have hdocid : doctor.id = doctorId := by
      have := List.find?_some hdoc
      simpa using this
    have hdmem := List.mem_of_find?_eq_some hdoc
    constructor
    · refine ⟨_, List.mem_map.mpr ⟨doctor, hdmem, rfl⟩, ?_⟩
      simp [hdocid]
    · intro d' hd' hid'
      rcases List.mem_map.mp hd' with ⟨d0, hd0, hd0eq⟩
      by_cases h0 : (d0.id == doctorId) = true
      · rw [if_pos h0] at hd0eq
        subst hd0eq
        constructor
        · intro hex
          exact upsertReview_found patient.id rating comment nowDate doctor.reviews hinv hex
        · intro hno
          simp only
          rw [upsertReview_not_found patient.id rating comment nowDate doctor.reviews hno]
      · rw [if_neg h0] at hd0eq
        subst hd0eq
        exact absurd (by simp [hid']) h0

/-- A concrete doctor profile used by witness theorems. -/
def egDoctor : Doctor where
  id := 1
  user := 4
  registrationNumber := "REG-1"
  verificationDocuments := [⟨"lic.pdf", "files/lic.pdf", false⟩]
  reviews := [⟨9, 3, "ok", 0⟩]
  availability := [⟨"Thursday", true, [⟨"09:00", "09:30"⟩]⟩]
  qualifications := []
  specialties := ["cardiology"]
  experience := 5
  clinicDetails := "clinic"
  hospitalAffiliations := []
  consultationFee := 100
  languages := []
  bio := "bio"
  videoConsultation := false
  acceptingNewPatients := true
  isVerified := true

/-- A concrete completed appointment between `egDoctor` and patient 9. -/
def egCompleted : Appt where
  doctor := 1
  patient := 9
  dateDay := 0
  dateSec := 0
  time := "09:00"
  status := "completed"
  cancellationReason := ""
  createdAtYear := 2026
  createdAtMonth := ⟨8, by omega⟩

theorem claim_C8_witness :
    (addDoctorReview 1 4 5 "great" 100 [egDoctor] [⟨9, 4⟩] [egCompleted]).1 = 200 :=
  (claim_C8 1 4 5 "great" 100 [egDoctor] [⟨9, 4⟩] [egCompleted]
    (by decide) (by decide) egDoctor (by decide) ⟨9, 4⟩ (by decide)).1.mpr
    ⟨egCompleted, by decide⟩

theorem claim_C2_witness :
    ∃ d' ∈ (addDoctorReview 1 4 5 "great" 100 [egDoctor] [⟨9, 4⟩] [egCompleted]).2,
      d'.id = 1 :=
  (claim_C2 1 4 5 "great" 100 [egDoctor] [⟨9, 4⟩] [egCompleted]
    egDoctor (by decide) ⟨9, 4⟩ (by decide) (by decide) (by decide)).1

/-! ## Availability lookup (`getDoctorAvailability`)

The source computes the day's appointment window as
`$gte: queryDate.setHours(0,0,0)` and `$lt: queryDate.setHours(23,59,59)`;
at whole-second granularity that is the half-open interval from second 0 to
second 86399 (= 23:59:59) of the queried day, so the final second of the
day is excluded. -/

/-- The weekday-name array of the source, indexed by `Date.getDay()`. -/
def dayNames : List String :=
  ["Sunday", "Monday", "Tuesday", "Wednesday", "Thursday", "Friday", "Saturday"]

/-- `Date.getDay()` for a day index counted from the Unix epoch
(1970-01-01 was a Thursday, weekday 4). -/
def dayOfWeekName (day : Nat) : String :=
  dayNames.get ⟨(day + 4) % 7, by
    have h : (day + 4) % 7 < 7 := Nat.mod_lt _ (by omega)
    simpa [dayNames] using h⟩

/-- A slot of the availability response, `{...slot, isBooked}`. -/
structure SlotOut where
  startTime : String
  endTime : String
  isBooked : Bool
  deriving DecidableEq, Repr

/-- The `data` payload of the date-specific availability response. -/
structure AvailData where
  dayOfWeek : String
  isAvailable : Bool
  availableSlots : List SlotOut
  deriving DecidableEq, Repr

/-- The date-specific branch of `getDoctorAvailability`: collect the
booked times of the doctor's non-cancelled, non-no-show appointments in the
day window, look up the weekday's configured entry, and mark slots. -/
def availabilityOnDate (doctor : Doctor) (qday : Nat) (appts : List Appt) : AvailData :=
  let dayOfWeek := dayOfWeekName qday
  let bookedSlots := (appts.filter (fun a =>
      a.doctor == doctor.id &&
      decide (qday * 86400 ≤ apptAbs a) && decide (apptAbs a < qday * 86400 + 86399) &&
      !(a.status == "cancelled") && !(a.status == "no-show"))).map (fun a => a.time)
  match doctor.availability.find? (fun av => av.day == dayOfWeek) with
  | none => ⟨dayOfWeek, false, []⟩
  | some dayAvailability =>
    if !dayAvailability.isAvailable then ⟨dayOfWeek, false, []⟩
    else ⟨dayOfWeek, true,
      dayAvailability.slots.map (fun s =>
        ⟨s.startTime, s.endTime, bookedSlots.contains s.startTime⟩)⟩

/-- `getDoctorAvailability` with a `date` query parameter: 404 when the
doctor is not found, otherwise 200 with the date-specific data. -/
def getDoctorAvailability (doctors : List Doctor) (doctorId qday : Nat)
    (appts : List Appt) : Nat × Option AvailData :=
  match doctors.find? (fun d => d.id == doctorId) with
  | none => (404, none)
  | some doctor => (200, some (availabilityOnDate doctor qday appts))

theorem contains_filter_map_time (l : List Appt) (p : Appt → Bool) (x : String) :
    ((l.filter p).map (fun a => a.time)).contains x
      = decide (∃ a ∈ l, p a = true ∧ a.time = x) := by
  apply Bool.eq_iff_iff.mpr
  rw [List.elem_iff]
  simp only [decide_eq_true_eq]
  constructor
  · intro h
    rcases List.mem_map.mp h with ⟨a, ha, hax⟩
    rcases List.mem_filter.mp ha with ⟨hal, hap⟩
    exact ⟨a, hal, hap, hax⟩
  · rintro ⟨a, hal, hap, hax⟩
    exact List.mem_map.mpr ⟨a, List.mem_filter.mpr ⟨hal, hap⟩, hax⟩

/-- Claim C9: for a doctor that exists, when the queried date's weekday is
absent from the availability configuration or configured unavailable, the
lookup succeeds (200) and reports the day unavailable with an empty slot
list, regardless of any stored slot definitions. -/
theorem claim_C9 (doctors : List Doctor) (doctorId qday : Nat) (appts : List Appt)
    (doctor : Doctor) (hdoc : doctors.find? (fun d => d.id == doctorId) = some doctor)
    (hday : doctor.availability.find? (fun av => av.day == dayOfWeekName qday) = none ∨
      ∃ da, doctor.availability.find? (fun av => av.day == dayOfWeekName qday) = some da ∧
        da.isAvailable = false) :
    getDoctorAvailability doctors doctorId qday appts
      = (200, some ⟨dayOfWeekName qday, false, []⟩) := by
  simp only [getDoctorAvailability, availabilityOnDate, hdoc]
  rcases hday with h | ⟨da, h, hfalse⟩
  · rw [h]
  · rw [h]
    simp [hfalse]

/-- Claim C3 (amended): for a doctor that exists and a date whose weekday is
configured available, the lookup returns that weekday's slot list, a slot
being marked booked iff some appointment of the doctor at exactly that start
time, with status neither `cancelled` nor `no-show`, has its timestamp in
the window from 00:00:00 (inclusive) to 23:59:59 (exclusive) of that date. -/
theorem claim_C3_amended (doctors : List Doctor) (doctorId qday : Nat) (appts : List Appt)
    (doctor : Doctor) (hdoc : doctors.find? (fun d => d.id == doctorId) = some doctor)
    (da : DayAvail)
    (hday : doctor.availability.find? (fun av => av.day == dayOfWeekName qday) = some da)
    (htrue : da.isAvailable = true) :
    getDoctorAvailability doctors doctorId qday appts
      = (200, some ⟨dayOfWeekName qday, true,
          da.slots.map (fun s => ⟨s.startTime, s.endTime,
            decide (∃ a ∈ appts, a.doctor = doctor.id ∧
              qday * 86400 ≤ apptAbs a ∧ apptAbs a < qday * 86400 + 86399 ∧
              a.status ≠ "cancelled" ∧ a.status ≠ "no-show" ∧ a.time = s.startTime)⟩)⟩) := by
  simp only [getDoctorAvailability, availabilityOnDate, hdoc, hday]
  rw [if_neg (by simp [htrue])]
  refine congrArg _ (congrArg _ (congrArg _ ?_))
  refine List.map_congr_left (fun s _ => ?_)
  refine congrArg _ ?_
  rw [contains_filter_map_time]
  apply Bool.eq_iff_iff.mpr
  simp only [decide_eq_true_eq, Bool.and_eq_true, beq_iff_eq, decide_eq_true_eq,
    Bool.not_eq_true', beq_eq_false_iff_ne, ne_eq]
  constructor
  · rintro ⟨a, hal, ⟨⟨⟨⟨hd, hge⟩, hlt⟩, hc⟩, hns⟩, ht⟩
    exact ⟨a, hal, hd, hge, hlt, hc, hns, ht⟩
  · rintro ⟨a, hal, hd, hge, hlt, hc, hns, ht⟩
    exact ⟨a, hal, ⟨⟨⟨⟨hd, hge⟩, hlt⟩, hc⟩, hns⟩, ht⟩

/-- An appointment in the final second (23:59:59) of day 0, at the slot's
start time, with active status. -/
def egLastSecond : Appt where
  doctor := 1
  patient := 9
  dateDay := 0
  dateSec := 86399
  time := "09:00"
  status := "scheduled"
  cancellationReason := ""
  createdAtYear := 2026
  createdAtMonth := ⟨8, by omega⟩

/-- Claim C3 as stated is false: `egLastSecond` is an appointment of
`egDoctor` on the queried date (day 0, a Thursday), at exactly the slot's
start time, with status neither cancelled nor no-show — yet the slot is not
marked booked, because the code's window `[00:00:00, 23:59:59)` excludes
the final second of the day. -/
theorem claim_C3_counterexample :
    (availabilityOnDate egDoctor 0 [egLastSecond]).availableSlots
        = [⟨"09:00", "09:30", false⟩] ∧
    (∃ a ∈ [egLastSecond], a.doctor = egDoctor.id ∧ a.dateDay = 0 ∧
      a.status ≠ "cancelled" ∧ a.status ≠ "no-show" ∧ a.time = "09:00") := by
  constructor
  · rfl
  · exact ⟨egLastSecond, by decide⟩

/-- An appointment of `egDoctor` at 10:00 of day 0 with time "09:00". -/
def egBooked : Appt where
  doctor := 1
  patient := 9
  dateDay := 0
  dateSec := 36000
  time := "09:00"
  status := "scheduled"
  cancellationReason := ""
  createdAtYear := 2026
  createdAtMonth := ⟨8, by omega⟩

theorem claim_C3_amended_witness :
    getDoctorAvailability [egDoctor] 1 0 [egBooked]
      = (200, some ⟨"Thursday", true, [⟨"09:00", "09:30", true⟩]⟩) := by
  rw [claim_C3_amended [egDoctor] 1 0 [egBooked] egDoctor (by decide)
    ⟨"Thursday", true, [⟨"09:00", "09:30"⟩]⟩ (by decide) rfl]
  decide

/-- `egDoctor` with the Thursday entry configured unavailable but with a
stored slot definition. -/
def egDoctorOff : Doctor :=
  { egDoctor with
      id := 2
      availability := [⟨"Thursday", false, [⟨"09:00", "09:30"⟩]⟩] }

theorem claim_C9_witness :
    getDoctorAvailability [egDoctorOff] 2 0 [] = (200, some ⟨"Thursday", false, []⟩) := by
  have h := claim_C9 [egDoctorOff] 2 0 [] egDoctorOff (by decide)
    (Or.inr ⟨⟨"Thursday", false, [⟨"09:00", "09:30"⟩]⟩, by decide, rfl⟩)
  rw [h]
  decide

/-! ## Database state, sessions, and the transactional handlers

`createDoctor`, `deleteDoctorByAdmin` and `deleteDoctor` open a Mongo
session: every database write in them passes `{session}` and so acts on a
pending copy of the database, which `commitTransaction` publishes; the
`catch` block's `abortTransaction` discards the pending copy.  A failure of
an awaited step is injected through an explicit fail-point parameter: the
failing step performs no effect and control reaches the catch block, which
responds with 500.  Reads in these handlers either precede every write or
hit collections the pending writes do not touch, so they read the committed
database.  File-store calls (`uploadFile`/`deleteFile`) are external,
immediate effects that no transaction rolls back. -/

/-- The document collections the doctor controller touches. -/
structure Db where
  doctors : List Doctor
  users : List UserRec
  patients : List Patient
  appointments : List Appt
  deriving DecidableEq, Repr

/-- Committed database plus the external file store, modelled by the urls
uploaded to it and the urls submitted to `deleteFile`. -/
structure World where
  db : Db
  uploadedFiles : List String
  deletedFiles : List String
  deriving DecidableEq, Repr

/-- The request body of `createDoctor` (the fields the handler copies into
the new profile; array fields default to `[]` when absent). -/
structure CreateBody where
  qualifications : Option (List String)
  specialties : Option (List String)
  experience : Int
  clinicDetails : String
  hospitalAffiliations : Option (List String)
  consultationFee : Int
  languages : Option (List String)
  bio : String
  deriving DecidableEq, Repr

/-- An uploaded multipart file: its original name and the url the file
store will assign to it. -/
structure UploadItem where
  originalname : String
  url : String
  deriving DecidableEq, Repr

/-- The awaited steps of `createDoctor` at which a failure can be injected;
`atUpload n` fails the upload of the `n`-th file. -/
inductive CreateFail where
  | atFindExisting
  | atFindUser
  | atUpload (n : Nat)
  | atSaveDoctor
  | atSaveUser
  | atCommit
  deriving DecidableEq, Repr

/-- `createDoctor`: duplicate-registration check, user lookup and role
check, document uploads, profile insert (sessioned), role promotion
(sessioned, only when the user is not already a doctor), commit.
Fields of the new profile not set by the handler get their schema
defaults. -/
def createDoctor (fp : Option CreateFail) (userId newId : Nat)
    (registrationNumber : String) (body : CreateBody) (files : List UploadItem)
    (w : World) : Nat × World :=
  if fp = some .atFindExisting then (500, w)
  else
    match w.db.doctors.find? (fun d => d.registrationNumber == registrationNumber) with
    | some _ => (400, w)
    | none =>
      if fp = some .atFindUser then (500, w)
      else
        match w.db.users.find? (fun u => u.id == userId) with
        | none => (404, w)
        | some user =>
          if user.role != "doctor" && user.role != "admin" then (403, w)
          else
            let up := match fp with
              | some (.atUpload n) =>
                  if n < files.length then (files.take n, false) else (files, true)
              | _ => (files, true)
            let w1 : World :=
              { w with uploadedFiles := w.uploadedFiles ++ up.1.map (fun f => f.url) }
            if !up.2 then (500, w1)
            else if fp = some .atSaveDoctor then (500, w1)
            else
              let newDoctor : Doctor :=
                { id := newId
                  user := userId
                  registrationNumber := registrationNumber
                  verificationDocuments := files.map (fun f => ⟨f.originalname, f.url, false⟩)
                  reviews := []
                  availability := []
                  qualifications := body.qualifications.getD []
                  specialties := body.specialties.getD []
                  experience := body.experience
                  clinicDetails := body.clinicDetails
                  hospitalAffiliations := body.hospitalAffiliations.getD []
                  consultationFee := body.consultationFee
                  languages := body.languages.getD []
                  bio := body.bio
                  videoConsultation := false
                  acceptingNewPatients := true
                  isVerified := false }
              let pending1 : Db := { w.db with doctors := w.db.doctors ++ [newDoctor] }
              if user.role != "doctor" then
                if fp = some .atSaveUser then (500, w1)
                else
                  let users2 := pending1.users.map
                    (fun u => if u.id == userId then { u with role := "doctor" } else u)
                  let pending2 : Db := { pending1 with users := users2 }
                  if fp = some .atCommit then (500, w1)
                  else (201, { w1 with db := pending2 })
              else
                if fp = some .atCommit then (500, w1)
                else (201, { w1 with db := pending1 })

/-- The awaited steps of `deleteDoctorByAdmin` at which a failure can be
injected; `atDeleteFile n` fails the deletion of the `n`-th document (this
loop is not wrapped per-file, so the failure aborts the handler). -/
inductive AdminDelFail where
  | atFindDoctor
  | atDeleteFile (n : Nat)
  | atDeleteProfile
  | atFindUser
  | atSaveUser
  | atCommit
  deriving DecidableEq, Repr

/-- `deleteDoctorByAdmin`: admin gate, doctor lookup, file deletions,
profile delete (sessioned), owner lookup, role demotion (sessioned, only
when the owner exists), commit. -/
def deleteDoctorByAdmin (fp : Option AdminDelFail) (requesterRole : String)
    (doctorId : Nat) (w : World) : Nat × World :=
  if requesterRole != "admin" then (403, w)
  else if fp = some .atFindDoctor then (500, w)
  else
    match w.db.doctors.find? (fun d => d.id == doctorId) with
    | none => (404, w)
    | some doctor =>
      let urls := doctor.verificationDocuments.map (fun v => v.url)
      let del := match fp with
        | some (.atDeleteFile n) =>
            if n < urls.length then (urls.take n, false) else (urls, true)
        | _ => (urls, true)
      let w1 : World := { w with deletedFiles := w.deletedFiles ++ del.1 }
      if !del.2 then (500, w1)
      else if fp = some .atDeleteProfile then (500, w1)
      else
        let pending1 : Db :=
          { w.db with doctors := w.db.doctors.filter (fun d => !(d.id == doctorId)) }
        if fp = some .atFindUser then (500, w1)
        else
          match w.db.users.find? (fun u => u.id == doctor.user) with
          | some _ =>
            if fp = some .atSaveUser then (500, w1)
            else
              let users2 := pending1.users.map
                (fun u => if u.id == doctor.user then { u with role := "user" } else u)
              let pending2 : Db := { pending1 with users := users2 }
              if fp = some .atCommit then (500, w1)
              else (200, { w1 with db := pending2 })
          | none =>
            if fp = some .atCommit then (500, w1)
            else (200, { w1 with db := pending1 })

/-- The awaited steps of `deleteDoctor` (self-deletion) at which a failure
can be injected.  The per-file `deleteFile` calls are wrapped in their own
try/catch and cannot abort the handler, so they carry no fail point. -/
inductive SelfDelFail where
  | atFindDoctor
  | atCount
  | atUpdateAppointments
  | atDeleteProfile
  | atFindUser
  | atSaveUser
  | atCommit
  deriving DecidableEq, Repr

/-- `deleteDoctor` (self-deletion): doctor lookup by owning user, active
(future scheduled) appointment gate, per-document file deletions (urls that
are truthy only; failures swallowed per file), appointment bulk-cancel
(sessioned), profile delete (sessioned), owner lookup, role demotion
(sessioned, only when the owner exists), commit. -/
def deleteDoctor (fp : Option SelfDelFail) (userId now : Nat) (w : World) : Nat × World :=
  if fp = some .atFindDoctor then (500, w)
  else
    match w.db.doctors.find? (fun d => d.user == userId) with
    | none => (404, w)
    | some doctor =>
      if fp = some .atCount then (500, w)
      else if 0 < w.db.appointments.countP (fun a =>
          a.doctor == doctor.id && a.status == "scheduled" && decide (now ≤ apptAbs a)) then
        (400, w)
      else
        let delUrls := (doctor.verificationDocuments.filter
          (fun v => !(v.url == ""))).map (fun v => v.url)
        let w1 : World := { w with deletedFiles := w.deletedFiles ++ delUrls }
        if fp = some .atUpdateAppointments then (500, w1)
        else
          let appts1 := w.db.appointments.map (fun a =>
            if a.doctor == doctor.id && !(a.status == "completed")
            then { a with status := "cancelled",
                          cancellationReason := "Doctor no longer available" }
            else a)
          let pending1 : Db := { w.db with appointments := appts1 }
          if fp = some .atDeleteProfile then (500, w1)
          else
            let doctors2 := pending1.doctors.filter (fun d => !(d.id == doctor.id))
            let pending2 : Db := { pending1 with doctors := doctors2 }
            if fp = some .atFindUser then (500, w1)
            else
              match w.db.users.find? (fun u => u.id == userId) with
              | some _ =>
                if fp = some .atSaveUser then (500, w1)
                else
                  let users3 := pending2.users.map
                    (fun u => if u.id == userId then { u with role := "user" } else u)
                  let pending3 : Db := { pending2 with users := users3 }
                  if fp = some .atCommit then (500, w1)
                  else (200, { w1 with db := pending3 })
              | none =>
                if fp = some .atCommit then (500, w1)
                else (200, { w1 with db := pending2 })

/-! ### Rollback lemmas: a 500 response leaves the committed database
unchanged, whichever step failed. -/

set_option maxHeartbeats 1000000 in
theorem createDoctor_rollback (fp : Option CreateFail) (userId newId : Nat)
    (rn : String) (body : CreateBody) (files : List UploadItem) (w : World) :
    (createDoctor fp userId newId rn body files w).1 = 500 →
    ((createDoctor fp userId newId rn body files w).2).db = w.db := by
  simp only [createDoctor]
  repeat' split
  all_goals simp_all

set_option maxHeartbeats 1000000 in
theorem deleteDoctorByAdmin_rollback (fp : Option AdminDelFail) (requesterRole : String)
    (doctorId : Nat) (w : World) :
    (deleteDoctorByAdmin fp requesterRole doctorId w).1 = 500 →
    ((deleteDoctorByAdmin fp requesterRole doctorId w).2).db = w.db := by
  simp only [deleteDoctorByAdmin]
  repeat' split
  all_goals simp_all

set_option maxHeartbeats 1000000 in
theorem deleteDoctor_rollback (fp : Option SelfDelFail) (userId now : Nat) (w : World) :
    (deleteDoctor fp userId now w).1 = 500 →
    ((deleteDoctor fp userId now w).2).db = w.db := by
  simp only [deleteDoctor]
  repeat' split
  all_goals simp_all

/-- Claim C5: the creation handler and both deletion handlers buffer all
their database writes in a single transaction, so whenever any awaited step
fails (a 500 response), the committed database is exactly what it was before
the handler ran — none of its buffered writes persists.  (External file effects are
not database writes and are not rolled back.) -/
theorem claim_C5 :
    (∀ (fp : Option CreateFail) (userId newId : Nat) (rn : String) (body : CreateBody)
        (files : List UploadItem) (w : World),
      (createDoctor fp userId newId rn body files w).1 = 500 →
      ((createDoctor fp userId newId rn body files w).2).db = w.db) ∧
    (∀ (fp : Option AdminDelFail) (requesterRole : String) (doctorId : Nat) (w : World),
      (deleteDoctorByAdmin fp requesterRole doctorId w).1 = 500 →
      ((deleteDoctorByAdmin fp requesterRole doctorId w).2).db = w.db) ∧
    (∀ (fp : Option SelfDelFail) (userId now : Nat) (w : World),
      (deleteDoctor fp userId now w).1 = 500 →
      ((deleteDoctor fp userId now w).2).db = w.db) :=
  ⟨createDoctor_rollback, deleteDoctorByAdmin_rollback, deleteDoctor_rollback⟩

/-- Claim C7: a creation request whose registration number is already on
file is rejected with 400 before any effect: the whole world (database,
file store) is returned unchanged. -/
theorem claim_C7 (userId newId : Nat) (rn : String) (body : CreateBody)
    (files : List UploadItem) (w : World)
    (hdup : ∃ d ∈ w.db.doctors, d.registrationNumber = rn) :
    createDoctor none userId newId rn body files w = (400, w) := by
  obtain ⟨d, hd, hdr⟩ := hdup
  have hsome : (w.db.doctors.find? (fun d => d.registrationNumber == rn)).isSome :=
    List.find?_isSome.mpr ⟨d, hd, by simp [hdr]⟩
  obtain ⟨d', hfind⟩ := Option.isSome_iff_exists.mp hsome
  simp [createDoctor, hfind]

/-- Claim C6: a self-deletion request while at least one `scheduled`
appointment dated now or later exists is rejected with 400 and the world is
returned unchanged. -/
theorem claim_C6 (userId now : Nat) (w : World) (doctor : Doctor)
    (hdoc : w.db.doctors.find? (fun d => d.user == userId) = some doctor)
    (hactive : ∃ a ∈ w.db.appointments,
      a.doctor = doctor.id ∧ a.status = "scheduled" ∧ now ≤ apptAbs a) :
    deleteDoctor none userId now w = (400, w) := by
  have hpos : 0 < w.db.appointments.countP (fun a =>
      a.doctor == doctor.id && a.status == "scheduled" && decide (now ≤ apptAbs a)) := by
    obtain ⟨a, ha, h1, h2, h3⟩ := hactive
    exact List.countP_pos_iff.mpr ⟨a, ha, by simp [h1, h2, h3]⟩
  simp [deleteDoctor, hdoc, hpos]

/-- Claim C4: a self-deletion with no future scheduled appointment succeeds
(200); afterwards each of the doctor's non-completed appointments is
cancelled with the fixed reason, the profile is gone, every
verification-document file (with a truthy url) was submitted for deletion,
and the owning user's role is `user`. -/
theorem claim_C4 (userId now : Nat) (w : World) (doctor : Doctor) (user : UserRec)
    (hdoc : w.db.doctors.find? (fun d => d.user == userId) = some doctor)
    (hactive : ¬ ∃ a ∈ w.db.appointments,
      a.doctor = doctor.id ∧ a.status = "scheduled" ∧ now ≤ apptAbs a)
    (huser : w.db.users.find? (fun u => u.id == userId) = some user) :
    (deleteDoctor none userId now w).1 = 200 ∧
    (deleteDoctor none userId now w).2.db.appointments
        = w.db.appointments.map (fun a =>
            if a.doctor = doctor.id ∧ a.status ≠ "completed"
            then { a with status := "cancelled",
                          cancellationReason := "Doctor no longer available" }
            else a) ∧
    (∀ d ∈ (deleteDoctor none userId now w).2.db.doctors, d.id ≠ doctor.id) ∧
    (∀ v ∈ doctor.verificationDocuments, v.url ≠ "" →
      v.url ∈ (deleteDoctor none userId now w).2.deletedFiles) ∧
    (∀ u ∈ (deleteDoctor none userId now w).2.db.users, u.id = userId → u.role = "user") := by
  have hzero : w.db.appointments.countP (fun a =>
      a.doctor == doctor.id && a.status == "scheduled" && decide (now ≤ apptAbs a)) = 0 := by
    rw [List.countP_eq_zero]
    intro a ha hp
    simp only [Bool.and_eq_true, beq_iff_eq, decide_eq_true_eq] at hp
    exact hactive ⟨a, ha, hp.1.1, hp.1.2, hp.2⟩
  simp [deleteDoctor, hdoc, huser, hzero]
  constructor
  · intro v hv hurl
    exact Or.inr ⟨v, ⟨hv, hurl⟩, rfl⟩
  · intro u _
    by_cases h : u.id = userId <;> simp [h]

/-- A scheduled appointment of `egDoctor` at the very start of day 0. -/
def egPast : Appt where
  doctor := 1
  patient := 9
  dateDay := 0
  dateSec := 0
  time := "09:00"
  status := "scheduled"
  cancellationReason := ""
  createdAtYear := 2026
  createdAtMonth := ⟨8, by omega⟩

/-- A world for the witness theorems: `egDoctor` (owned by user 4, whose
role is `doctor`), one patient, one scheduled appointment at time 0. -/
def egWorld : World where
  db := { doctors := [egDoctor]
          users := [⟨4, "doctor"⟩]
          patients := [⟨9, 5⟩]
          appointments := [egPast] }
  uploadedFiles := []
  deletedFiles := []

theorem claim_C4_witness : (deleteDoctor none 4 1 egWorld).1 = 200 :=
  (claim_C4 4 1 egWorld egDoctor ⟨4, "doctor"⟩ (by decide) (by decide) (by decide)).1

theorem claim_C6_witness : deleteDoctor none 4 0 egWorld = (400, egWorld) :=
  claim_C6 4 0 egWorld egDoctor (by decide) ⟨egPast, by decide⟩

theorem claim_C7_witness :
    createDoctor none 4 9 "REG-1" ⟨none, none, 0, "", none, 0, none, ""⟩ [] egWorld
      = (400, egWorld) :=
  claim_C7 4 9 "REG-1" ⟨none, none, 0, "", none, 0, none, ""⟩ [] egWorld
    ⟨egDoctor, by decide⟩

theorem claim_C5_witness :
    ((createDoctor (some .atCommit) 4 9 "REG-2" ⟨none, none, 0, "", none, 0, none, ""⟩ []
        egWorld).2).db = egWorld.db ∧
    ((deleteDoctorByAdmin (some .atCommit) "admin" 1 egWorld).2).db = egWorld.db ∧
    ((deleteDoctor (some .atCommit) 4 1 egWorld).2).db = egWorld.db :=
  ⟨claim_C5.1 (some .atCommit) 4 9 "REG-2" ⟨none, none, 0, "", none, 0, none, ""⟩ []
      egWorld (by decide),
   claim_C5.2.1 (some .atCommit) "admin" 1 egWorld (by decide),
   claim_C5.2.2 (some .atCommit) 4 1 egWorld (by decide)⟩

/-! ## Profile updates (`updateDoctor` / `updateDoctorProfile`)

Each updatable field is assigned only under `if (field)` — JavaScript
truthiness of the submitted value.  `none` models an absent or `null`
field.  For a numeric field `0` is falsy, for a string field `""` is
falsy, and an array value (even the empty array) is truthy.
`videoConsultation` and `acceptingNewPatients` are instead guarded by
`!== undefined`, modelled as `isSome` (with `getD` supplying the stored
value in the unreachable default). -/

/-- The updatable fields of the two profile-update request bodies
(`availability` is only read by `updateDoctor`). -/
structure UpdateBody where
  qualifications : Option (List String)
  specialties : Option (List String)
  experience : Option Int
  clinicDetails : Option String
  hospitalAffiliations : Option (List String)
  consultationFee : Option Int
  languages : Option (List String)
  bio : Option String
  availability : Option (List DayAvail)
  videoConsultation : Option Bool
  acceptingNewPatients : Option Bool
  deriving DecidableEq, Repr

/-- JavaScript truthiness of a possibly-absent number (`0` is falsy). -/
def truthyInt : Option Int → Bool
  | none => false
  | some n => !(n == 0)

/-- JavaScript truthiness of a possibly-absent string (`""` is falsy). -/
def truthyStr : Option String → Bool
  | none => false
  | some s => !(s == "")

/-- JavaScript truthiness of a possibly-absent array (always truthy when
present). -/
def truthyList {α : Type} : Option (List α) → Bool
  | none => false
  | some _ => true

/-- The field-assignment block of `updateDoctor` (`if (field) doctor.field
= field`, plus the two `!== undefined` boolean fields). -/
def updateDoctorFields (b : UpdateBody) (d : Doctor) : Doctor :=
  let d := if truthyList b.qualifications then
    { d with qualifications := b.qualifications.getD [] } else d
  let d := if truthyList b.specialties then
    { d with specialties := b.specialties.getD [] } else d
  let d := if truthyInt b.experience then
    { d with experience := b.experience.getD 0 } else d
  let d := if truthyStr b.clinicDetails then
    { d with clinicDetails := b.clinicDetails.getD "" } else d
  let d := if truthyList b.hospitalAffiliations then
    { d with hospitalAffiliations := b.hospitalAffiliations.getD [] } else d
  let d := if truthyInt b.consultationFee then
    { d with consultationFee := b.consultationFee.getD 0 } else d
  let d := if truthyList b.languages then
    { d with languages := b.languages.getD [] } else d
  let d := if truthyStr b.bio then
    { d with bio := b.bio.getD "" } else d
  let d := if truthyList b.availability then
    { d with availability := b.availability.getD [] } else d
  let d := if b.videoConsultation.isSome then
    { d with videoConsultation := b.videoConsultation.getD d.videoConsultation } else d
  let d := if b.acceptingNewPatients.isSome then
    { d with acceptingNewPatients := b.acceptingNewPatients.getD d.acceptingNewPatients }
    else d
  d

/-- The field-assignment block of `updateDoctorProfile` — identical to
`updateDoctorFields` except that it has no `availability` field. -/
def updateDoctorProfileFields (b : UpdateBody) (d : Doctor) : Doctor :=
  let d := if truthyList b.qualifications then
    { d with qualifications := b.qualifications.getD [] } else d
  let d := if truthyList b.specialties then
    { d with specialties := b.specialties.getD [] } else d
  let d := if truthyInt b.experience then
    { d with experience := b.experience.getD 0 } else d
  let d := if truthyStr b.clinicDetails then
    { d with clinicDetails := b.clinicDetails.getD "" } else d
  let d := if truthyList b.hospitalAffiliations then
    { d with hospitalAffiliations := b.hospitalAffiliations.getD [] } else d
  let d := if truthyInt b.consultationFee then
    { d with consultationFee := b.consultationFee.getD 0 } else d
  let d := if truthyList b.languages then
    { d with languages := b.languages.getD [] } else d
  let d := if truthyStr b.bio then
    { d with bio := b.bio.getD "" } else d
  let d := if b.videoConsultation.isSome then
    { d with videoConsultation := b.videoConsultation.getD d.videoConsultation } else d
  let d := if b.acceptingNewPatients.isSome then
    { d with acceptingNewPatients := b.acceptingNewPatients.getD d.acceptingNewPatients }
    else d
  d

/-- Claim C10: in both profile-update handlers, a field supplied with a
falsy value (absent/null for every field, additionally 0 for numbers and
the empty string for strings) leaves the stored field unchanged, a
truthy-valued field is written, and `videoConsultation` /
`acceptingNewPatients` are written whenever they are present (not
undefined); consequently a consultation fee of 0 or an empty bio can never
be stored through these endpoints. -/
theorem claim_C10 (b : UpdateBody) (d : Doctor) :
    (b.experience = none ∨ b.experience = some 0 → (updateDoctorFields b d).experience = d.experience) ∧
    (∀ v : Int, b.experience = some v → v ≠ 0 → (updateDoctorFields b d).experience = v) ∧
    (b.consultationFee = none ∨ b.consultationFee = some 0 → (updateDoctorFields b d).consultationFee = d.consultationFee) ∧
    (∀ v : Int, b.consultationFee = some v → v ≠ 0 → (updateDoctorFields b d).consultationFee = v) ∧
    (b.clinicDetails = none ∨ b.clinicDetails = some "" → (updateDoctorFields b d).clinicDetails = d.clinicDetails) ∧
    (∀ s : String, b.clinicDetails = some s → s ≠ "" → (updateDoctorFields b d).clinicDetails = s) ∧
    (b.bio = none ∨ b.bio = some "" → (updateDoctorFields b d).bio = d.bio) ∧
    (∀ s : String, b.bio = some s → s ≠ "" → (updateDoctorFields b d).bio = s) ∧
    (b.qualifications = none → (updateDoctorFields b d).qualifications = d.qualifications) ∧
    (∀ l : List String, b.qualifications = some l → (updateDoctorFields b d).qualifications = l) ∧
    (b.specialties = none → (updateDoctorFields b d).specialties = d.specialties) ∧
    (∀ l : List String, b.specialties = some l → (updateDoctorFields b d).specialties = l) ∧
    (b.hospitalAffiliations = none → (updateDoctorFields b d).hospitalAffiliations = d.hospitalAffiliations) ∧
    (∀ l : List String, b.hospitalAffiliations = some l → (updateDoctorFields b d).hospitalAffiliations = l) ∧
    (b.languages = none → (updateDoctorFields b d).languages = d.languages) ∧
    (∀ l : List String, b.languages = some l → (updateDoctorFields b d).languages = l) ∧
    (b.availability = none → (updateDoctorFields b d).availability = d.availability) ∧
    (∀ l : List DayAvail, b.availability = some l → (updateDoctorFields b d).availability = l) ∧
    (b.videoConsultation = none → (updateDoctorFields b d).videoConsultation = d.videoConsultation) ∧
    (∀ v : Bool, b.videoConsultation = some v → (updateDoctorFields b d).videoConsultation = v) ∧
    (b.acceptingNewPatients = none → (updateDoctorFields b d).acceptingNewPatients = d.acceptingNewPatients) ∧
    (∀ v : Bool, b.acceptingNewPatients = some v → (updateDoctorFields b d).acceptingNewPatients = v) ∧
    (d.consultationFee ≠ 0 → (updateDoctorFields b d).consultationFee ≠ 0) ∧
    (d.bio ≠ "" → (updateDoctorFields b d).bio ≠ "") ∧
    (b.experience = none ∨ b.experience = some 0 → (updateDoctorProfileFields b d).experience = d.experience) ∧
    (∀ v : Int, b.experience = some v → v ≠ 0 → (updateDoctorProfileFields b d).experience = v) ∧
    (b.consultationFee = none ∨ b.consultationFee = some 0 → (updateDoctorProfileFields b d).consultationFee = d.consultationFee) ∧
    (∀ v : Int, b.consultationFee = some v → v ≠ 0 → (updateDoctorProfileFields b d).consultationFee = v) ∧
    (b.clinicDetails = none ∨ b.clinicDetails = some "" → (updateDoctorProfileFields b d).clinicDetails = d.clinicDetails) ∧
    (∀ s : String, b.clinicDetails = some s → s ≠ "" → (updateDoctorProfileFields b d).clinicDetails = s) ∧
    (b.bio = none ∨ b.bio = some "" → (updateDoctorProfileFields b d).bio = d.bio) ∧
    (∀ s : String, b.bio = some s → s ≠ "" → (updateDoctorProfileFields b d).bio = s) ∧
    (b.qualifications = none → (updateDoctorProfileFields b d).qualifications = d.qualifications) ∧
    (∀ l : List String, b.qualifications = some l → (updateDoctorProfileFields b d).qualifications = l) ∧
    (b.specialties = none → (updateDoctorProfileFields b d).specialties = d.specialties) ∧
    (∀ l : List String, b.specialties = some l → (updateDoctorProfileFields b d).specialties = l) ∧
    (b.hospitalAffiliations = none → (updateDoctorProfileFields b d).hospitalAffiliations = d.hospitalAffiliations) ∧
    (∀ l : List String, b.hospitalAffiliations = some l → (updateDoctorProfileFields b d).hospitalAffiliations = l) ∧
    (b.languages = none → (updateDoctorProfileFields b d).languages = d.languages) ∧
    (∀ l : List String, b.languages = some l → (updateDoctorProfileFields b d).languages = l) ∧
    (b.videoConsultation = none → (updateDoctorProfileFields b d).videoConsultation = d.videoConsultation) ∧
    (∀ v : Bool, b.videoConsultation = some v → (updateDoctorProfileFields b d).videoConsultation = v) ∧
    (b.acceptingNewPatients = none → (updateDoctorProfileFields b d).acceptingNewPatients = d.acceptingNewPatients) ∧
    (∀ v : Bool, b.acceptingNewPatients = some v → (updateDoctorProfileFields b d).acceptingNewPatients = v) ∧
    (d.consultationFee ≠ 0 → (updateDoctorProfileFields b d).consultationFee ≠ 0) ∧
    (d.bio ≠ "" → (updateDoctorProfileFields b d).bio ≠ "") := by
  refine ⟨?_, ?_, ?_, ?_, ?_, ?_, ?_, ?_, ?_, ?_, ?_, ?_, ?_, ?_, ?_, ?_, ?_, ?_, ?_, ?_, ?_, ?_, ?_, ?_, ?_, ?_, ?_, ?_, ?_, ?_, ?_, ?_, ?_, ?_, ?_, ?_, ?_, ?_, ?_, ?_, ?_, ?_, ?_, ?_, ?_, ?_⟩
  · rintro (h | h) <;> simp [updateDoctorFields, truthyInt, truthyStr, truthyList, h, apply_ite Doctor.experience]
  · intro v h hnz
    simp [updateDoctorFields, truthyInt, truthyStr, truthyList, h, hnz, apply_ite Doctor.experience]
  · rintro (h | h) <;> simp [updateDoctorFields, truthyInt, truthyStr, truthyList, h, apply_ite Doctor.consultationFee]
  · intro v h hnz
    simp [updateDoctorFields, truthyInt, truthyStr, truthyList, h, hnz, apply_ite Doctor.consultationFee]
  · rintro (h | h) <;> simp [updateDoctorFields, truthyInt, truthyStr, truthyList, h, apply_ite Doctor.clinicDetails]
  · intro s h hnz
    simp [updateDoctorFields, truthyInt, truthyStr, truthyList, h, hnz, apply_ite Doctor.clinicDetails]
  · rintro (h | h) <;> simp [updateDoctorFields, truthyInt, truthyStr, truthyList, h, apply_ite Doctor.bio]
  · intro s h hnz
    simp [updateDoctorFields, truthyInt, truthyStr, truthyList, h, hnz, apply_ite Doctor.bio]
  · intro h
    simp [updateDoctorFields, truthyInt, truthyStr, truthyList, h, apply_ite Doctor.qualifications]
  · intro l h
    simp [updateDoctorFields, truthyInt, truthyStr, truthyList, h, apply_ite Doctor.qualifications]
  · intro h
    simp [updateDoctorFields, truthyInt, truthyStr, truthyList, h, apply_ite Doctor.specialties]
  · intro l h
    simp [updateDoctorFields, truthyInt, truthyStr, truthyList, h, apply_ite Doctor.specialties]
  · intro h
    simp [updateDoctorFields, truthyInt, truthyStr, truthyList, h, apply_ite Doctor.hospitalAffiliations]
  · intro l h
    simp [updateDoctorFields, truthyInt, truthyStr, truthyList, h, apply_ite Doctor.hospitalAffiliations]
  · intro h
    simp [updateDoctorFields, truthyInt, truthyStr, truthyList, h, apply_ite Doctor.languages]
  · intro l h
    simp [updateDoctorFields, truthyInt, truthyStr, truthyList, h, apply_ite Doctor.languages]
  · intro h
    simp [updateDoctorFields, truthyInt, truthyStr, truthyList, h, apply_ite Doctor.availability]
  · intro l h
    simp [updateDoctorFields, truthyInt, truthyStr, truthyList, h, apply_ite Doctor.availability]
  · intro h
    simp [updateDoctorFields, truthyInt, truthyStr, truthyList, h, apply_ite Doctor.videoConsultation]
  · intro v h
    simp [updateDoctorFields, truthyInt, truthyStr, truthyList, h, apply_ite Doctor.videoConsultation]
  · intro h
    simp [updateDoctorFields, truthyInt, truthyStr, truthyList, h, apply_ite Doctor.acceptingNewPatients]
  · intro v h
    simp [updateDoctorFields, truthyInt, truthyStr, truthyList, h, apply_ite Doctor.acceptingNewPatients]
  · intro h
    rcases hb : b.consultationFee with _ | v
    · simpa [updateDoctorFields, truthyInt, truthyStr, truthyList, hb, apply_ite Doctor.consultationFee] using h
    · by_cases hv : v = 0
      · subst hv
        simpa [updateDoctorFields, truthyInt, truthyStr, truthyList, hb, apply_ite Doctor.consultationFee] using h
      · simp [updateDoctorFields, truthyInt, truthyStr, truthyList, hb, hv, apply_ite Doctor.consultationFee]
  · intro h
    rcases hb : b.bio with _ | s
    · simpa [updateDoctorFields, truthyInt, truthyStr, truthyList, hb, apply_ite Doctor.bio] using h
    · by_cases hv : s = ""
      · subst hv
        simpa [updateDoctorFields, truthyInt, truthyStr, truthyList, hb, apply_ite Doctor.bio] using h
      · simp [updateDoctorFields, truthyInt, truthyStr, truthyList, hb, hv, apply_ite Doctor.bio]
  · rintro (h | h) <;> simp [updateDoctorProfileFields, truthyInt, truthyStr, truthyList, h, apply_ite Doctor.experience]
  · intro v h hnz
    simp [updateDoctorProfileFields, truthyInt, truthyStr, truthyList, h, hnz, apply_ite Doctor.experience]
  · rintro (h | h) <;> simp [updateDoctorProfileFields, truthyInt, truthyStr, truthyList, h, apply_ite Doctor.consultationFee]
  · intro v h hnz
    simp [updateDoctorProfileFields, truthyInt, truthyStr, truthyList, h, hnz, apply_ite Doctor.consultationFee]
  · rintro (h | h) <;> simp [updateDoctorProfileFields, truthyInt, truthyStr, truthyList, h, apply_ite Doctor.clinicDetails]
  · intro s h hnz
    simp [updateDoctorProfileFields, truthyInt, truthyStr, truthyList, h, hnz, apply_ite Doctor.clinicDetails]
  · rintro (h | h) <;> simp [updateDoctorProfileFields, truthyInt, truthyStr, truthyList, h, apply_ite Doctor.bio]
  · intro s h hnz
    simp [updateDoctorProfileFields, truthyInt, truthyStr, truthyList, h, hnz, apply_ite Doctor.bio]
  · intro h
    simp [updateDoctorProfileFields, truthyInt, truthyStr, truthyList, h, apply_ite Doctor.qualifications]
  · intro l h
    simp [updateDoctorProfileFields, truthyInt, truthyStr, truthyList, h, apply_ite Doctor.qualifications]
  · intro h
    simp [updateDoctorProfileFields, truthyInt, truthyStr, truthyList, h, apply_ite Doctor.specialties]
  · intro l h
    simp [updateDoctorProfileFields, truthyInt, truthyStr, truthyList, h, apply_ite Doctor.specialties]
  · intro h
    simp [updateDoctorProfileFields, truthyInt, truthyStr, truthyList, h, apply_ite Doctor.hospitalAffiliations]
  · intro l h
    simp [updateDoctorProfileFields, truthyInt, truthyStr, truthyList, h, apply_ite Doctor.hospitalAffiliations]
  · intro h
    simp [updateDoctorProfileFields, truthyInt, truthyStr, truthyList, h, apply_ite Doctor.languages]
  · intro l h
    simp [updateDoctorProfileFields, truthyInt, truthyStr, truthyList, h, apply_ite Doctor.languages]
  · intro h
    simp [updateDoctorProfileFields, truthyInt, truthyStr, truthyList, h, apply_ite Doctor.videoConsultation]
  · intro v h
    simp [updateDoctorProfileFields, truthyInt, truthyStr, truthyList, h, apply_ite Doctor.videoConsultation]
  · intro h
    simp [updateDoctorProfileFields, truthyInt, truthyStr, truthyList, h, apply_ite Doctor.acceptingNewPatients]
  · intro v h
    simp [updateDoctorProfileFields, truthyInt, truthyStr, truthyList, h, apply_ite Doctor.acceptingNewPatients]
  · intro h
    rcases hb : b.consultationFee with _ | v
    · simpa [updateDoctorProfileFields, truthyInt, truthyStr, truthyList, hb, apply_ite Doctor.consultationFee] using h
    · by_cases hv : v = 0
      · subst hv
        simpa [updateDoctorProfileFields, truthyInt, truthyStr, truthyList, hb, apply_ite Doctor.consultationFee] using h
      · simp [updateDoctorProfileFields, truthyInt, truthyStr, truthyList, hb, hv, apply_ite Doctor.consultationFee]
  · intro h
    rcases hb : b.bio with _ | s
    · simpa [updateDoctorProfileFields, truthyInt, truthyStr, truthyList, hb, apply_ite Doctor.bio] using h
    · by_cases hv : s = ""
      · subst hv
        simpa [updateDoctorProfileFields, truthyInt, truthyStr, truthyList, hb, apply_ite Doctor.bio] using h
      · simp [updateDoctorProfileFields, truthyInt, truthyStr, truthyList, hb, hv, apply_ite Doctor.bio]

/-- An update body whose consultation fee is 0, whose bio is the empty
string, and whose `videoConsultation` is the (falsy but defined) `false`. -/
def egUpdateBody : UpdateBody where
  qualifications := none
  specialties := none
  experience := none
  clinicDetails := none
  hospitalAffiliations := none
  consultationFee := some 0
  languages := none
  bio := some ""
  availability := none
  videoConsultation := some false
  acceptingNewPatients := none

theorem claim_C10_witness :
    (updateDoctorFields egUpdateBody egDoctor).consultationFee = egDoctor.consultationFee ∧
    (updateDoctorFields egUpdateBody egDoctor).bio = egDoctor.bio ∧
    (updateDoctorFields egUpdateBody egDoctor).videoConsultation = false := by
  obtain ⟨h1, h2, h3, h4, h5, h6, h7, h8, h9, h10, h11, h12, h13, h14, h15, h16, h17,
    h18, h19, h20, -⟩ := claim_C10 egUpdateBody egDoctor
  exact ⟨h3 (Or.inr rfl), h7 (Or.inr rfl), h20 false rfl⟩

end Medi
